import Mathlib

/-!
# Verification of the VideoLM infrastructure deployment script

Shallow embedding of `infra/__main__.py`, a linear Pulumi program that
(a) zips the `custom_environment` directory, (b) hashes the archive with
SHA-256, (c) enumerates a filtered list of project source files, and
(d) declares DataRobot resources and exports their identifiers.

Filesystem traversal results are modelled as explicit listings
(`List FsEntry`); each entry carries its path components relative to the
traversal root, its regular-file flag, its content bytes and its stat
modification time — the data `pathlib` traversal and `zipfile.write`
actually consume.
-/

namespace VideoLM

/-- A filesystem node as produced by a `pathlib` traversal
(`env_dir.rglob("*")` or `application_path.glob("**/*")`):
`rel` is the list of path components relative to the traversal root,
`isFile` is `Path.is_file()`, `content` the file bytes, `mtime` the
stat modification time in seconds (what `zipfile` stamps entries with). -/
structure FsEntry where
  rel : List String
  isFile : Bool
  content : List Nat
  mtime : Nat
deriving Repr, DecidableEq

/-- The final path component, `Path.name`. -/
def FsEntry.name (f : FsEntry) : String := f.rel.getLastD ""

/-- Render path components the way `PurePath.as_posix()` does. -/
def relPosix (parts : List String) : String := String.intercalate "/" parts

/-- Rendering of `f.as_posix()` for an absolute path: the parts of `application_path`
(with a leading `""` component standing for the root `/`) followed by the
components relative to it. -/
def absPosix (rootParts : List String) (f : FsEntry) : String :=
  relPosix (rootParts ++ f.rel)

/-- The `IGNORED_PARTS` set from the source-file loop. -/
def IGNORED_PARTS : List String :=
  [".venv", "node_modules", "dist", "uploads", ".git", ".github",
   ".vscode", ".idea", "coverage", ".pytest_cache", "__pycache__"]

/-- The two launcher scripts that are special-cased by name. -/
def launcherNames : List String := ["build-app.sh", "start-app.sh"]

/-- One iteration of the `source_files` loop body: `none` when the file is
skipped (`continue`), otherwise the `(absolute posix path, archive
relative path)` pair appended to `source_files`.  Mirrors the four
branches of the loop: the `is_file` check, the `IGNORED_PARTS` filter
over all parts of the absolute path, the `infra` rule, and the
launcher-script special case. -/
def selectSource (rootParts : List String) (f : FsEntry) :
    Option (String × String) :=
  if f.isFile = false then none
  else if (rootParts ++ f.rel).any (fun part => part ∈ IGNORED_PARTS) then none
  else if "infra" ∈ rootParts ++ f.rel ∧ f.name ∉ launcherNames then none
  else if f.name ∈ launcherNames then some (absPosix rootParts f, f.name)
  else some (absPosix rootParts f, relPosix f.rel)

/-- The `source_files` list built by the loop over
`application_path.glob("**/*")`, whose result is `files`. -/
def sourceFiles (rootParts : List String) (files : List FsEntry) :
    List (String × String) :=
  files.filterMap (selectSource rootParts)

/-! ## Archive builder (`zipfile.ZipFile` write loop, lines 16–20)

The loop iterates `env_dir.rglob("*")`, keeps regular files, and calls
`zipf.write(file_path, file_path.relative_to(env_dir))`.  `zipfile`
records, per entry: the archive name, a DOS date/time stamp derived from
`st_mtime` (2-second resolution), the CRC-32 of the content, and the
(deterministically) compressed content.  We model an entry by the data
that determines those fields. -/

/-- One archive member as written by `zipf.write`: the archive name
components (`relative_to(env_dir)`), the source file's `st_mtime`, and
its content bytes. -/
structure ZipEntry where
  arcname : List String
  mtime : Nat
  content : List Nat
deriving Repr, DecidableEq

/-- The archive build loop: every regular file yielded by
`env_dir.rglob("*")` becomes one member named by its path relative to
`env_dir`; directories (and anything not a regular file) are skipped. -/
def buildArchive (envListing : List FsEntry) : List ZipEntry :=
  envListing.filterMap fun f =>
    if f.isFile then some ⟨f.rel, f.mtime, f.content⟩ else none

/-- Model of the DOS date/time stamp `zipfile.ZipInfo.from_file` derives
from `st_mtime` and stores in each member's header: 2-second resolution,
a function of the modification time alone. -/
def dosStamp (mtime : Nat) : Nat := mtime / 2

/-- One step of the CRC-32 bit loop (polynomial `0xEDB88320`). -/
def crcStep (c : Nat) : Nat :=
  if c % 2 = 1 then Nat.xor 3988292384 (c / 2) else c / 2

/-- Fold one byte into a CRC-32 accumulator. -/
def crcByte (c b : Nat) : Nat := crcStep^[8] (Nat.xor c b)

/-- CRC-32 of a byte list, as `zipfile` records per member. -/
def crc32 (bs : List Nat) : Nat :=
  Nat.xor (bs.foldl crcByte 4294967295) 4294967295

/-- Little-endian 16-bit field. -/
def le16 (n : Nat) : List Nat := [n % 256, n / 256 % 256]

/-- Little-endian 32-bit field. -/
def le32 (n : Nat) : List Nat :=
  [n % 256, n / 256 % 256, n / 65536 % 256, n / 16777216 % 256]

/-- Bytes of an archive name string (ASCII here). -/
def strBytes (s : String) : List Nat := s.data.map Char.toNat

/-- Model of the bytes `zipfile` writes for one member: the local-header
signature `PK\x03\x04`, the DOS stamp derived from the file's `st_mtime`,
the CRC-32 of the content, the name length and name, then the member
data (compression with a fixed `zlib` is a deterministic function of the
content, so the content stands for the compressed stream). -/
def memberBytes (e : ZipEntry) : List Nat :=
  [80, 75, 3, 4] ++ le32 (dosStamp e.mtime) ++ le32 (crc32 e.content) ++
    le16 (strBytes (relPosix e.arcname)).length ++
    strBytes (relPosix e.arcname) ++ e.content

/-- The bytes of `custom_environment.zip` as a function of its members. -/
def zipFileBytes (es : List ZipEntry) : List Nat :=
  es.flatMap memberBytes

/-! ## SHA-256 (`hashlib.sha256`, FIPS 180-4)

The script computes `hashlib.sha256(zip_bytes).hexdigest()`.  We embed
SHA-256 over byte lists with `Nat` words reduced mod `2^32`. -/

/-- Truncate to a 32-bit word. -/
def w32 (n : Nat) : Nat := n % 4294967296

/-- Right rotation of a 32-bit word by `n` places. -/
def rotr32 (n x : Nat) : Nat := x / 2 ^ n + x % 2 ^ n * 2 ^ (32 - n)

/-- FIPS 180-4 `σ0`. -/
def ssig0 (x : Nat) : Nat :=
  Nat.xor (Nat.xor (rotr32 7 x) (rotr32 18 x)) (x / 2 ^ 3)

/-- FIPS 180-4 `σ1`. -/
def ssig1 (x : Nat) : Nat :=
  Nat.xor (Nat.xor (rotr32 17 x) (rotr32 19 x)) (x / 2 ^ 10)

/-- FIPS 180-4 `Σ0`. -/
def bsig0 (x : Nat) : Nat :=
  Nat.xor (Nat.xor (rotr32 2 x) (rotr32 13 x)) (rotr32 22 x)

/-- FIPS 180-4 `Σ1`. -/
def bsig1 (x : Nat) : Nat :=
  Nat.xor (Nat.xor (rotr32 6 x) (rotr32 11 x)) (rotr32 25 x)

/-- FIPS 180-4 `Ch`. -/
def chFn (x y z : Nat) : Nat :=
  Nat.xor (Nat.land x y) (Nat.land (Nat.xor x 4294967295) z)

/-- FIPS 180-4 `Maj`. -/
def majFn (x y z : Nat) : Nat :=
  Nat.xor (Nat.xor (Nat.land x y) (Nat.land x z)) (Nat.land y z)

/-- The 64 SHA-256 round constants. -/
def sha256K : List Nat :=
  [1116352408, 1899447441, 3049323471, 3921009573, 961987163,
   1508970993, 2453635748, 2870763221, 3624381080, 310598401,
   607225278, 1426881987, 1925078388, 2162078206, 2614888103,
   3248222580, 3835390401, 4022224774, 264347078, 604807628,
   770255983, 1249150122, 1555081692, 1996064986, 2554220882,
   2821834349, 2952996808, 3210313671, 3336571891, 3584528711,
   113926993, 338241895, 666307205, 773529912, 1294757372,
   1396182291, 1695183700, 1986661051, 2177026350, 2456956037,
   2730485921, 2820302411, 3259730800, 3345764771, 3516065817,
   3600352804, 4094571909, 275423344, 430227734, 506948616,
   659060556, 883997877, 958139571, 1322822218, 1537002063,
   1747873779, 1955562222, 2024104815, 2227730452, 2361852424,
   2428436474, 2756734187, 3204031479, 3329325298]

/-- The initial SHA-256 hash state. -/
def sha256H0 : List Nat :=
  [1779033703, 3144134277, 1013904242, 2773480762,
   1359893119, 2600822924, 528734635, 1541459225]

/-- One message-schedule extension step; `ws` holds the schedule so far
in reverse (newest word first), so `ws.getD 1` is `w[t-2]`, `ws.getD 6`
is `w[t-7]`, `ws.getD 14` is `w[t-15]` and `ws.getD 15` is `w[t-16]`. -/
def schedStep (ws : List Nat) : List Nat :=
  w32 (ssig1 (ws.getD 1 0) + ws.getD 6 0 + ssig0 (ws.getD 14 0) +
    ws.getD 15 0) :: ws

/-- The 64-word message schedule of one 16-word block. -/
def schedule (block : List Nat) : List Nat :=
  (schedStep^[48] block.reverse).reverse

/-- One SHA-256 compression round; the state is `[a,b,c,d,e,f,g,h]` and
`kw` carries the round constant and schedule word. -/
def roundFn (st : List Nat) (kw : Nat × Nat) : List Nat :=
  match st with
  | [a, b, c, d, e, f, g, h] =>
    let t1 := w32 (h + bsig1 e + chFn e f g + kw.1 + kw.2)
    let t2 := w32 (bsig0 a + majFn a b c)
    [w32 (t1 + t2), a, b, c, w32 (d + t1), e, f, g]
  | other => other

/-- Compress one 16-word block into the running 8-word hash state. -/
def compress (h : List Nat) (block : List Nat) : List Nat :=
  let st := (sha256K.zip (schedule block)).foldl roundFn h
  (h.zip st).map fun p => w32 (p.1 + p.2)

/-- Big-endian 32-bit field. -/
def be32 (n : Nat) : List Nat :=
  [n / 16777216 % 256, n / 65536 % 256, n / 256 % 256, n % 256]

/-- Big-endian 64-bit field. -/
def be64 (n : Nat) : List Nat := be32 (n / 4294967296) ++ be32 n

/-- SHA-256 padding: a `0x80` byte, zeros to 56 mod 64, then the bit
length as a big-endian 64-bit field. -/
def padMsg (msg : List Nat) : List Nat :=
  msg ++ 128 :: List.replicate ((119 - msg.length % 64) % 64) 0 ++
    be64 (msg.length * 8)

/-- Group bytes into big-endian 32-bit words. -/
def toWords : List Nat → List Nat
  | b0 :: b1 :: b2 :: b3 :: rest =>
    (b0 * 16777216 + b1 * 65536 + b2 * 256 + b3) :: toWords rest
  | _ => []

/-- Fold the padded message's 16-word blocks through `compress`; the
first argument is fuel bounding the number of blocks. -/
def sha256Blocks : Nat → List Nat → List Nat → List Nat
  | 0, h, _ => h
  | fuel + 1, h, ws =>
    match ws with
    | [] => h
    | _ => sha256Blocks fuel (compress h (ws.take 16)) (ws.drop 16)

/-- The eight 32-bit words of the SHA-256 digest of a byte list. -/
def sha256Words (msg : List Nat) : List Nat :=
  sha256Blocks (toWords (padMsg msg)).length sha256H0 (toWords (padMsg msg))

/-- Lower-case hex digit. -/
def hexDigit (n : Nat) : Char :=
  Char.ofNat (if n < 10 then 48 + n else 87 + n)

/-- Eight lower-case hex characters of a 32-bit word. -/
def wordHexChars (w : Nat) : List Char :=
  [hexDigit (w / 16 ^ 7 % 16), hexDigit (w / 16 ^ 6 % 16),
   hexDigit (w / 16 ^ 5 % 16), hexDigit (w / 16 ^ 4 % 16),
   hexDigit (w / 16 ^ 3 % 16), hexDigit (w / 16 ^ 2 % 16),
   hexDigit (w / 16 % 16), hexDigit (w % 16)]

/-- Model of `hashlib.sha256(msg).hexdigest()`: the lower-case hex rendering of
the SHA-256 digest. -/
def sha256hex (msg : List Nat) : String :=
  String.mk ((sha256Words msg).flatMap wordHexChars)

/-! ## The write-then-hash flow (lines 16–27)

The script writes `custom_environment.zip` and then reopens that file in
`"rb"` mode to hash its bytes.  A tiny byte store models the filesystem
between the two steps. -/

/-- A filesystem byte store: newest write first, lookup by path. -/
def writeFile (store : List (String × List Nat)) (p : String)
    (bs : List Nat) : List (String × List Nat) :=
  (p, bs) :: store

/-- Model of `open(p, "rb").read()`: the most recent bytes written to `p`. -/
def readFile (store : List (String × List Nat)) (p : String) :
    Option (List Nat) :=
  (store.find? fun e => e.1 = p).map fun e => e.2

/-- The `zip_path` value: `BASE_DIR / "custom_environment.zip"` where `BASE_DIR`
is the `infra` directory under the application root. -/
def zipPath (rootParts : List String) : String :=
  relPosix (rootParts ++ ["infra", "custom_environment.zip"])

/-- Lines 16–20: create (or overwrite) the ZIP archive at `zip_path`
with all regular files from the `custom_environment` directory. -/
def writeArchiveStage (rootParts : List String)
    (store : List (String × List Nat)) (envListing : List FsEntry) :
    List (String × List Nat) :=
  writeFile store (zipPath rootParts) (zipFileBytes (buildArchive envListing))

/-- Lines 26–27: reopen `zip_path`, read its bytes and take the SHA-256
hex digest (`docker_context_hash`); `none` if the file is unreadable. -/
def hashArchiveStage (rootParts : List String)
    (store : List (String × List Nat)) : Option String :=
  (readFile store (zipPath rootParts)).map sha256hex

/-- Line 35: the `ExecutionEnvironment` description f-string with the
digest interpolated. -/
def exeEnvDescription (digest : String) : String :=
  "Custom execution environment for VideoLM with hash " ++ digest

/-! ## Resource declarations and stack exports (lines 30–105) -/

/-- A reference to an output attribute of a previously declared
resource, as passed between the declarations. -/
inductive ResourceRef where
  | exeEnvId
  | exeEnvVersionId
  | appSourceVersionId
deriving Repr, DecidableEq

/-- One declarative resource statement handed to the provisioning API,
with the arguments the script passes. -/
inductive ResourceDecl where
  | executionEnvironment (resourceName programmingLanguage : String)
      (useCases : List String) (dockerContextPath descr : String)
  | applicationSource (resourceName sourceName : String)
      (files : List (String × String))
      (baseEnvironmentId baseEnvironmentVersionId : ResourceRef)
      (resourceLabel : String) (replicas : Nat) (sessionAffinity : Bool)
  | customApplication (resourceName appName : String)
      (sourceVersionId : ResourceRef) (allowAutoStopping : Bool)
deriving Repr, DecidableEq

/-- The resource statements the script submits, in program order:
`exe_env` (line 30), `app_source` (line 81), `app` (line 94).
`projectName` is `PROJECT_NAME`, `ctxPath` is `docker_context_path`,
`digest` is `docker_context_hash`, `files` is `source_files`, and
`bundleId` is `CustomAppResourceBundles.CPU_8XL.value.id` (an opaque
identifier from the external utility library). -/
def resourceDeclarations (projectName ctxPath digest bundleId : String)
    (files : List (String × String)) : List ResourceDecl :=
  [.executionEnvironment ("[" ++ projectName ++ "]-exe-env") "other"
      ["customApplication"] ctxPath (exeEnvDescription digest),
   .applicationSource ("[" ++ projectName ++ "]-app-source")
      ("[" ++ projectName ++ "]-app-source") files
      .exeEnvId .exeEnvVersionId bundleId 1 true,
   .customApplication ("[" ++ projectName ++ "]-app")
      ("[" ++ projectName ++ "]-app") .appSourceVersionId false]

/-- The three resources the script declares, by kind. -/
inductive ResourceKind where
  | exeEnv
  | appSource
  | app
deriving Repr, DecidableEq

/-- The kind of resource a declaration constructs. -/
def declKind : ResourceDecl → ResourceKind
  | .executionEnvironment _ _ _ _ _ => .exeEnv
  | .applicationSource _ _ _ _ _ _ _ _ => .appSource
  | .customApplication _ _ _ _ => .app

/-- The output attributes exported from those resources. -/
inductive ResourceAttr where
  | rname
  | rid
  | versionId
  | applicationUrl
deriving Repr, DecidableEq

/-- The `pulumi.export` calls, in program order (lines 38–41 and
101–105): stack-output key paired with the exported resource
attribute. -/
def stackExports : List (String × ResourceKind × ResourceAttr) :=
  [("execution_environment_name", (.exeEnv, .rname)),
   ("execution_environment_id", (.exeEnv, .rid)),
   ("execution_environment_version_id", (.exeEnv, .versionId)),
   ("app_source_id", (.appSource, .rid)),
   ("app_source_version_id", (.appSource, .versionId)),
   ("app_id", (.app, .rid)),
   ("app_url", (.app, .applicationUrl))]

/-! ## Error flow (whole module)

The module is a single linear sequence with no `try`/`except`: a raised
exception at any step aborts the program.  Each fallible step is
embedded as an `Except`-valued computation and the module as their
monadic sequence, so an error result of a step is the result of the
whole run. -/

/-- The module as a straight-line sequence of its fallible steps, in
program order: build the archive, hash it, enumerate the source files,
declare the resources (with their exports).  There is no handler: the
sequence is pure monadic bind in `Except`. -/
def scriptRun {ε α β γ δ : Type} (archiveStep : Except ε α)
    (hashStep : α → Except ε β) (enumStep : Except ε γ)
    (declareStep : β → γ → Except ε δ) : Except ε δ := do
  let archive ← archiveStep
  let digest ← hashStep archive
  let files ← enumStep
  declareStep digest files

end VideoLM

namespace VideoLM

set_option maxRecDepth 10000 in
/-- Validation of the SHA-256 embedding against the FIPS 180-4 test
vector for the empty message. -/
theorem sha256hex_empty_vector :
    sha256hex [] =
      "e3b0c44298fc1c149afbf4c8996fb92427ae41e4649b934ca495991b7852b855" := by
  decide

set_option maxRecDepth 10000 in
/-- Validation of the SHA-256 embedding against the FIPS 180-4 test
vector for `"abc"`. -/
theorem sha256hex_abc_vector :
    sha256hex [97, 98, 99] =
      "ba7816bf8f01cfea414140de5dae2223b00361a396177a9cb410ff61f20015ad" := by
  decide

set_option maxRecDepth 10000 in
/-- Validation of the CRC-32 embedding against the standard check value
for `"123456789"`. -/
theorem crc32_check_vector :
    crc32 [49, 50, 51, 52, 53, 54, 55, 56, 57] = 3421780262 := by
  decide

/-- The archive build loop keeps exactly the regular files, in traversal
order, as members carrying name, mtime and content. -/
theorem buildArchive_eq_map_filter (l : List FsEntry) :
    buildArchive l =
      (l.filter fun f => f.isFile).map (fun f => ⟨f.rel, f.mtime, f.content⟩) := by
  induction l with
  | nil => rfl
  | cons a t ih =>
    by_cases h : a.isFile = true
    · simp [buildArchive, List.filterMap_cons, List.filter_cons, h] at ih ⊢
      exact ih
    · simp [buildArchive, List.filterMap_cons, List.filter_cons, h] at ih ⊢
      exact ih

/-- C1: over a traversal listing with no repeated paths, the archive has
exactly one member per regular file, in traversal order, each named by
the file's path relative to `custom_environment`, and nothing else. -/
theorem archive_members_exactly_env_files (l : List FsEntry)
    (hnd : (l.map FsEntry.rel).Nodup) :
    buildArchive l =
      (l.filter fun f => f.isFile).map (fun f => ⟨f.rel, f.mtime, f.content⟩) ∧
    ((buildArchive l).map ZipEntry.arcname).Nodup ∧
    (∀ e ∈ buildArchive l, ∃ f, f ∈ l ∧ f.isFile = true ∧
      e.arcname = f.rel ∧ e.mtime = f.mtime ∧ e.content = f.content) ∧
    (∀ f ∈ l, f.isFile = true →
      (⟨f.rel, f.mtime, f.content⟩ : ZipEntry) ∈ buildArchive l) := by
  have heq := buildArchive_eq_map_filter l
  refine ⟨heq, ?_, ?_, ?_⟩
  · have harc : (buildArchive l).map ZipEntry.arcname =
        (l.filter fun f => f.isFile).map FsEntry.rel := by
      rw [heq, List.map_map]; rfl
    rw [harc]
    exact List.Nodup.sublist ((List.filter_sublist l).map FsEntry.rel) hnd
  · intro e he
    rw [heq] at he
    obtain ⟨f, hf, rfl⟩ := List.mem_map.mp he
    obtain ⟨hfl, hfile⟩ := List.mem_filter.mp hf
    exact ⟨f, hfl, hfile, rfl, rfl, rfl⟩
  · intro f hf hfile
    rw [heq]
    exact List.mem_map_of_mem _ (List.mem_filter.mpr ⟨hf, hfile⟩)

/-- Witness for C1 at a concrete two-node listing (one regular file, one
directory). -/
theorem archive_members_exactly_env_files_witness :
    (([⟨["Dockerfile"], true, [1], 0⟩, ⟨["sub"], false, [], 0⟩] :
        List FsEntry).map FsEntry.rel).Nodup ∧
    buildArchive [⟨["Dockerfile"], true, [1], 0⟩, ⟨["sub"], false, [], 0⟩] =
      [⟨["Dockerfile"], 0, [1]⟩] :=
  ⟨by decide,
    ((archive_members_exactly_env_files
      [⟨["Dockerfile"], true, [1], 0⟩, ⟨["sub"], false, [], 0⟩]
      (by decide)).1).trans (by decide)⟩

/-- C2: `docker_context_hash` is the SHA-256 hex digest of exactly the
bytes the archive step wrote to `zip_path`, and the `ExecutionEnvironment`
declared first embeds that digest in its description. -/
theorem hash_is_digest_of_written_archive (rootParts : List String)
    (store : List (String × List Nat)) (envListing : List FsEntry)
    (projectName ctxPath bundleId : String) (files : List (String × String)) :
    hashArchiveStage rootParts (writeArchiveStage rootParts store envListing) =
      some (sha256hex (zipFileBytes (buildArchive envListing))) ∧
    (resourceDeclarations projectName ctxPath
        (sha256hex (zipFileBytes (buildArchive envListing))) bundleId
        files).head? =
      some (.executionEnvironment ("[" ++ projectName ++ "]-exe-env") "other"
        ["customApplication"] ctxPath
        ("Custom execution environment for VideoLM with hash " ++
          sha256hex (zipFileBytes (buildArchive envListing)))) := by
  constructor
  · simp [hashArchiveStage, writeArchiveStage, writeFile, readFile,
      List.find?]
  · rfl

/-- C5 (counterexample): the script does not declare four resources —
at any concrete arguments the declaration list has length three. -/
theorem resource_declarations_not_four :
    ¬ (resourceDeclarations "VideoLM" "/root/VideoLM/infra/custom_environment.zip"
        "d41d8cd9" "cpu.8xlarge" []).length = 4 := by
  decide

/-- C5 (amended): the script declares exactly three remote resources
with the provisioning API: the execution environment, the application
source and the custom application. -/
theorem resource_declarations_count_three
    (projectName ctxPath digest bundleId : String)
    (files : List (String × String)) :
    (resourceDeclarations projectName ctxPath digest bundleId files).length = 3 :=
  rfl

set_option maxRecDepth 10000 in
/-- C6 (counterexample): two environment listings with identical paths,
file flags and contents — differing only in modification times — yield
different archive bytes, because `zipfile` stamps each member with a DOS
date/time derived from `st_mtime`. -/
theorem archive_bytes_depend_on_mtime :
    (([⟨["Dockerfile"], true, [70, 82, 79, 77], 0⟩] : List FsEntry).map
        (fun f => (f.rel, f.isFile, f.content)) =
      ([⟨["Dockerfile"], true, [70, 82, 79, 77], 86400⟩] : List FsEntry).map
        (fun f => (f.rel, f.isFile, f.content))) ∧
    zipFileBytes (buildArchive [⟨["Dockerfile"], true, [70, 82, 79, 77], 0⟩]) ≠
      zipFileBytes (buildArchive
        [⟨["Dockerfile"], true, [70, 82, 79, 77], 86400⟩]) := by
  constructor
  · rfl
  · decide

/-- C6 (amended): the archive build is deterministic in the traversal
listing together with modification times: listings that agree on paths,
file flags, contents and mtimes produce byte-identical archives (hence
identical digests). -/
theorem archive_deterministic_given_mtimes (l1 l2 : List FsEntry)
    (h : l1.map (fun f => (f.rel, f.isFile, f.content, f.mtime)) =
        l2.map (fun f => (f.rel, f.isFile, f.content, f.mtime))) :
    zipFileBytes (buildArchive l1) = zipFileBytes (buildArchive l2) ∧
    sha256hex (zipFileBytes (buildArchive l1)) =
      sha256hex (zipFileBytes (buildArchive l2)) := by
  have hinj : Function.Injective
      (fun f : FsEntry => (f.rel, f.isFile, f.content, f.mtime)) := by
    intro a b hab
    cases a; cases b
    simpa using hab
  have hl : l1 = l2 := List.map_injective_iff.mpr hinj h
  rw [hl]
  exact ⟨rfl, rfl⟩

/-- Witness for C6 (amended) at a concrete pair of equal listings. -/
theorem archive_deterministic_given_mtimes_witness :
    zipFileBytes (buildArchive [⟨["Dockerfile"], true, [9], 44⟩]) =
      zipFileBytes (buildArchive [⟨["Dockerfile"], true, [9], 44⟩]) ∧
    sha256hex (zipFileBytes (buildArchive [⟨["Dockerfile"], true, [9], 44⟩])) =
      sha256hex (zipFileBytes (buildArchive [⟨["Dockerfile"], true, [9], 44⟩])) :=
  archive_deterministic_given_mtimes
    [⟨["Dockerfile"], true, [9], 44⟩] [⟨["Dockerfile"], true, [9], 44⟩] rfl

/-- A selected pair comes from a regular file of the traversal. -/
theorem mem_sourceFiles_elim (rootParts : List String)
    (files : List FsEntry) (p : String × String)
    (hp : p ∈ sourceFiles rootParts files) :
    ∃ f, f ∈ files ∧ selectSource rootParts f = some p := by
  obtain ⟨f, hf, hsel⟩ := List.mem_filterMap.mp hp
  exact ⟨f, hf, hsel⟩

/-- C3: every entry of `source_files` is a pair of the file's absolute
posix path and its archive-relative path — the path relative to the
application root in general, and the bare filename when the file is
named `build-app.sh` or `start-app.sh`. -/
theorem source_pairs_shape (rootParts : List String) (files : List FsEntry)
    (p : String × String) (hp : p ∈ sourceFiles rootParts files) :
    ∃ f, f ∈ files ∧ f.isFile = true ∧ p.1 = absPosix rootParts f ∧
      ((f.name ∈ launcherNames ∧ p.2 = f.name) ∨
       (f.name ∉ launcherNames ∧ p.2 = relPosix f.rel)) := by
  obtain ⟨f, hf, hsel⟩ := mem_sourceFiles_elim rootParts files p hp
  unfold selectSource at hsel
  split at hsel
  · exact absurd hsel (by simp)
  split at hsel
  · exact absurd hsel (by simp)
  split at hsel
  · exact absurd hsel (by simp)
  rename_i h1 h2 h3
  have hfile : f.isFile = true := eq_true_of_ne_false h1
  split at hsel
  · rename_i h4
    obtain rfl := Option.some.inj hsel
    exact ⟨f, hf, hfile, rfl, Or.inl ⟨h4, rfl⟩⟩
  · rename_i h4
    obtain rfl := Option.some.inj hsel
    exact ⟨f, hf, hfile, rfl, Or.inr ⟨h4, rfl⟩⟩

/-- Witness for C3 at a one-file project tree. -/
theorem source_pairs_shape_witness :
    ("/VideoLM/app.py", "app.py") ∈
      sourceFiles ["", "VideoLM"] [⟨["app.py"], true, [], 0⟩] ∧
    ∃ f, f ∈ ([⟨["app.py"], true, [], 0⟩] : List FsEntry) ∧ f.isFile = true ∧
      ("/VideoLM/app.py", "app.py").1 = absPosix ["", "VideoLM"] f ∧
      ((f.name ∈ launcherNames ∧ ("/VideoLM/app.py", "app.py").2 = f.name) ∨
       (f.name ∉ launcherNames ∧
         ("/VideoLM/app.py", "app.py").2 = relPosix f.rel)) :=
  ⟨by decide,
   source_pairs_shape ["", "VideoLM"] [⟨["app.py"], true, [], 0⟩]
     ("/VideoLM/app.py", "app.py") (by decide)⟩

/-- C4: every entry of `source_files` comes from a file none of whose
absolute-path components is in `IGNORED_PARTS`, and any listed file with
an `infra` component is one of the two launcher scripts. -/
theorem source_pairs_respect_exclusions (rootParts : List String)
    (files : List FsEntry) (p : String × String)
    (hp : p ∈ sourceFiles rootParts files) :
    ∃ f, f ∈ files ∧ selectSource rootParts f = some p ∧
      (∀ part ∈ rootParts ++ f.rel, part ∉ IGNORED_PARTS) ∧
      ("infra" ∈ rootParts ++ f.rel → f.name ∈ launcherNames) := by
  obtain ⟨f, hf, hsel⟩ := mem_sourceFiles_elim rootParts files p hp
  refine ⟨f, hf, hsel, ?_⟩
  have hne : selectSource rootParts f ≠ none := by rw [hsel]; simp
  unfold selectSource at hne
  split at hne
  · exact absurd rfl hne
  split at hne
  · exact absurd rfl hne
  rename_i h1 h2
  constructor
  · intro part hpart hmem
    exact h2 (List.any_eq_true.mpr ⟨part, hpart, by simpa using hmem⟩)
  · intro hinf
    split at hne
    · exact absurd rfl hne
    · rename_i h3
      by_contra hnot
      exact h3 ⟨hinf, hnot⟩

/-- Witness for C4 at a small tree containing an excluded directory and
an infra file. -/
theorem source_pairs_respect_exclusions_witness :
    ("/VideoLM/app.py", "app.py") ∈
      sourceFiles ["", "VideoLM"]
        [⟨["app.py"], true, [], 0⟩,
         ⟨["node_modules", "x.js"], true, [], 0⟩,
         ⟨["infra", "settings.py"], true, [], 0⟩] ∧
    ∃ f, f ∈ ([⟨["app.py"], true, [], 0⟩,
         ⟨["node_modules", "x.js"], true, [], 0⟩,
         ⟨["infra", "settings.py"], true, [], 0⟩] : List FsEntry) ∧
      selectSource ["", "VideoLM"] f = some ("/VideoLM/app.py", "app.py") ∧
      (∀ part ∈ ["", "VideoLM"] ++ f.rel, part ∉ IGNORED_PARTS) ∧
      ("infra" ∈ ["", "VideoLM"] ++ f.rel → f.name ∈ launcherNames) :=
  ⟨by decide,
   source_pairs_respect_exclusions ["", "VideoLM"]
     [⟨["app.py"], true, [], 0⟩,
      ⟨["node_modules", "x.js"], true, [], 0⟩,
      ⟨["infra", "settings.py"], true, [], 0⟩]
     ("/VideoLM/app.py", "app.py") (by decide)⟩

/-- A regular file with no ignored path component that carries a
launcher-script name is always selected, with the bare filename as its
archive-relative path. -/
theorem selectSource_launcher_name (rootParts : List String) (f : FsEntry)
    (hf : f.isFile = true)
    (hi : ∀ part ∈ rootParts ++ f.rel, part ∉ IGNORED_PARTS)
    (hn : f.name ∈ launcherNames) :
    selectSource rootParts f = some (absPosix rootParts f, f.name) := by
  have h1 : ¬ f.isFile = false := by simp [hf]
  have h2 : ¬ ((rootParts ++ f.rel).any fun part =>
      decide (part ∈ IGNORED_PARTS)) = true := by
    intro hany
    obtain ⟨part, hpart, hdec⟩ := List.any_eq_true.mp hany
    exact hi part hpart (of_decide_eq_true hdec)
  have h3 : ¬ ("infra" ∈ rootParts ++ f.rel ∧ f.name ∉ launcherNames) :=
    fun hc => hc.2 hn
  unfold selectSource
  rw [if_neg h1, if_neg h2, if_neg h3, if_pos hn]

/-- C9: two distinct non-excluded regular files both named
`build-app.sh` (or both `start-app.sh`) each land in `source_files`
mapped to their bare filename, so the list holds two entries with the
same archive-relative path. -/
theorem launcher_name_duplicate_paths (rootParts : List String)
    (files : List FsEntry) (f1 f2 : FsEntry)
    (hsub : [f1, f2].Sublist files)
    (h1f : f1.isFile = true) (h2f : f2.isFile = true)
    (h1i : ∀ part ∈ rootParts ++ f1.rel, part ∉ IGNORED_PARTS)
    (h2i : ∀ part ∈ rootParts ++ f2.rel, part ∉ IGNORED_PARTS)
    (h1n : f1.name ∈ launcherNames) (h2n : f2.name ∈ launcherNames)
    (hnm : f1.name = f2.name) :
    selectSource rootParts f1 = some (absPosix rootParts f1, f1.name) ∧
    selectSource rootParts f2 = some (absPosix rootParts f2, f2.name) ∧
    [(absPosix rootParts f1, f1.name),
     (absPosix rootParts f2, f2.name)].Sublist
      (sourceFiles rootParts files) ∧
    (absPosix rootParts f1, f1.name).2 = (absPosix rootParts f2, f2.name).2 := by
  have e1 := selectSource_launcher_name rootParts f1 h1f h1i h1n
  have e2 := selectSource_launcher_name rootParts f2 h2f h2i h2n
  refine ⟨e1, e2, ?_, hnm⟩
  have hs := hsub.filterMap (selectSource rootParts)
  simpa [List.filterMap_cons, e1, e2, sourceFiles] using hs

/-- Witness for C9: a tree with `scripts/build-app.sh` and
`infra/build-app.sh` produces two entries whose archive-relative paths
coincide. -/
theorem launcher_name_duplicate_paths_witness :
    selectSource ["", "VideoLM"] ⟨["scripts", "build-app.sh"], true, [], 0⟩ =
      some ("/VideoLM/scripts/build-app.sh", "build-app.sh") ∧
    selectSource ["", "VideoLM"] ⟨["infra", "build-app.sh"], true, [], 0⟩ =
      some ("/VideoLM/infra/build-app.sh", "build-app.sh") ∧
    [("/VideoLM/scripts/build-app.sh", "build-app.sh"),
     ("/VideoLM/infra/build-app.sh", "build-app.sh")].Sublist
      (sourceFiles ["", "VideoLM"]
        [⟨["scripts", "build-app.sh"], true, [], 0⟩,
         ⟨["infra", "build-app.sh"], true, [], 0⟩]) ∧
    ("/VideoLM/scripts/build-app.sh", "build-app.sh").2 =
      ("/VideoLM/infra/build-app.sh", "build-app.sh").2 :=
  launcher_name_duplicate_paths ["", "VideoLM"]
    [⟨["scripts", "build-app.sh"], true, [], 0⟩,
     ⟨["infra", "build-app.sh"], true, [], 0⟩]
    ⟨["scripts", "build-app.sh"], true, [], 0⟩
    ⟨["infra", "build-app.sh"], true, [], 0⟩
    (List.Sublist.refl _) rfl rfl (by decide) (by decide)
    (by decide) (by decide) rfl

/-- C10: the generated archive `infra/custom_environment.zip` is never
selected — whatever its content, mtime or file flag, the selector skips
it, so appending it to the traversal leaves `source_files` unchanged. -/
theorem env_zip_never_in_source_list (rootParts : List String)
    (files : List FsEntry) (f : FsEntry)
    (hrel : f.rel = ["infra", "custom_environment.zip"]) :
    selectSource rootParts f = none ∧
    sourceFiles rootParts (files ++ [f]) = sourceFiles rootParts files := by
  have hnone : selectSource rootParts f = none := by
    unfold selectSource
    by_cases h1 : f.isFile = false
    · rw [if_pos h1]
    rw [if_neg h1]
    by_cases h2 : ((rootParts ++ f.rel).any fun part =>
        decide (part ∈ IGNORED_PARTS)) = true
    · rw [if_pos h2]
    rw [if_neg h2, if_pos ?hc]
    case hc =>
      constructor
      · rw [hrel]
        exact List.mem_append_right rootParts (by decide)
      · rw [FsEntry.name, hrel]
        decide
  refine ⟨hnone, ?_⟩
  simp [sourceFiles, List.filterMap_append, hnone]

/-- Witness for C10 at a concrete tree and archive file. -/
theorem env_zip_never_in_source_list_witness :
    selectSource ["", "VideoLM"]
      ⟨["infra", "custom_environment.zip"], true, [80, 75], 7⟩ = none ∧
    sourceFiles ["", "VideoLM"]
      ([⟨["app.py"], true, [], 0⟩] ++
        [⟨["infra", "custom_environment.zip"], true, [80, 75], 7⟩]) =
      sourceFiles ["", "VideoLM"] [⟨["app.py"], true, [], 0⟩] :=
  env_zip_never_in_source_list ["", "VideoLM"] [⟨["app.py"], true, [], 0⟩]
    ⟨["infra", "custom_environment.zip"], true, [80, 75], 7⟩ rfl

/-- C7: the module is straight-line `Except` composition with no
handler: whichever step fails first — archiving, hashing, enumeration or
resource declaration — its error is the result of the whole run,
unchanged. -/
theorem script_propagates_failures {ε α β γ δ : Type}
    (archiveStep : Except ε α) (hashStep : α → Except ε β)
    (enumStep : Except ε γ) (declareStep : β → γ → Except ε δ) :
    (∀ e, archiveStep = .error e →
      scriptRun archiveStep hashStep enumStep declareStep = .error e) ∧
    (∀ a e, archiveStep = .ok a → hashStep a = .error e →
      scriptRun archiveStep hashStep enumStep declareStep = .error e) ∧
    (∀ a b e, archiveStep = .ok a → hashStep a = .ok b →
      enumStep = .error e →
      scriptRun archiveStep hashStep enumStep declareStep = .error e) ∧
    (∀ a b c e, archiveStep = .ok a → hashStep a = .ok b →
      enumStep = .ok c → declareStep b c = .error e →
      scriptRun archiveStep hashStep enumStep declareStep = .error e) := by
  refine ⟨?_, ?_, ?_, ?_⟩
  · intro e h
    simp [scriptRun, h, Bind.bind, Except.bind]
  · intro a e h1 h2
    simp [scriptRun, h1, h2, Bind.bind, Except.bind]
  · intro a b e h1 h2 h3
    simp [scriptRun, h1, h2, h3, Bind.bind, Except.bind]
  · intro a b c e h1 h2 h3 h4
    simp [scriptRun, h1, h2, h3, h4, Bind.bind, Except.bind]

/-- Witness for C7: each of the four stages made to fail at concrete
values surfaces its own error as the run's result. -/
theorem script_propagates_failures_witness :
    scriptRun (Except.error 7 : Except Nat Nat) (fun a => Except.ok a)
      (Except.ok 0) (fun b c => Except.ok (b + c)) = Except.error 7 ∧
    scriptRun (Except.ok 1 : Except Nat Nat)
      (fun _ => (Except.error 8 : Except Nat Nat)) (Except.ok 0)
      (fun b c => Except.ok (b + c)) = Except.error 8 ∧
    scriptRun (Except.ok 1 : Except Nat Nat) (fun a => Except.ok a)
      (Except.error 9 : Except Nat Nat)
      (fun b c => Except.ok (b + c)) = Except.error 9 ∧
    scriptRun (Except.ok 1 : Except Nat Nat) (fun a => Except.ok a)
      (Except.ok 2 : Except Nat Nat)
      (fun _ _ => (Except.error 10 : Except Nat (List Nat))) =
        Except.error 10 :=
  ⟨(script_propagates_failures _ _ _ _).1 7 rfl,
   (script_propagates_failures _ _ _ _).2.1 1 8 rfl rfl,
   (script_propagates_failures _ _ _ _).2.2.1 1 1 9 rfl rfl rfl,
   (script_propagates_failures _ _ _ _).2.2.2 1 1 2 10 rfl rfl rfl rfl⟩

/-- C8: every declared resource has its identifiers exported as stack
outputs — name, id and version id of the execution environment, id and
version id of the application source, id and application URL of the
custom application. -/
theorem exports_cover_declared_resources
    (projectName ctxPath digest bundleId : String)
    (files : List (String × String)) :
    (((resourceDeclarations projectName ctxPath digest bundleId
        files).map declKind).all fun r =>
          stackExports.any fun e => e.2.1 = r) = true ∧
    ("execution_environment_name",
      (ResourceKind.exeEnv, ResourceAttr.rname)) ∈ stackExports ∧
    ("execution_environment_id",
      (ResourceKind.exeEnv, ResourceAttr.rid)) ∈ stackExports ∧
    ("execution_environment_version_id",
      (ResourceKind.exeEnv, ResourceAttr.versionId)) ∈ stackExports ∧
    ("app_source_id",
      (ResourceKind.appSource, ResourceAttr.rid)) ∈ stackExports ∧
    ("app_source_version_id",
      (ResourceKind.appSource, ResourceAttr.versionId)) ∈ stackExports ∧
    ("app_id", (ResourceKind.app, ResourceAttr.rid)) ∈ stackExports ∧
    ("app_url",
      (ResourceKind.app, ResourceAttr.applicationUrl)) ∈ stackExports :=
  ⟨rfl, by decide, by decide, by decide, by decide, by decide, by decide,
   by decide⟩

end VideoLM
